import Mathlib

/-!
Verification development for the steel-section lookup service
(`uc_ub_data_retrieval.py`).  The Python core is embedded shallowly:

* strings are Lean `String`s (lists of characters); the handful of string
  operations the code uses (`str.lower`, `str.strip`, `str.replace`,
  `re.split`, `re.findall`, `re.match`, `re.search`) are modelled as
  executable functions on character lists, restricted to the ASCII
  behaviour the data actually exercises;
* Python floats are modelled as exact rationals (`ℚ`); `float(...)` is
  modelled by an exact decimal parser (exponent, `inf`/`nan` and
  underscore forms lie outside the rational model);
* a pandas `DataFrame` row is a `Record`: the designation column, the
  auxiliary `section_designation_extra` column, the remaining data
  columns, and the three derived key columns appended by the loader;
* `find_section` returns `Except String LookupResult`, mirroring the
  `raise ValueError(msg)` / return-dict behaviour of the source.
-/

namespace SectionRetrieval

/-- ASCII whitespace, modelling Python's `str.strip` default set and the
regex class `\s` on the inputs in scope. -/
def isPySpace (c : Char) : Bool :=
  c = ' ' || c = '\t' || c = '\n' || c = '\r' || c = Char.ofNat 11 || c = Char.ofNat 12

/-- The regex class `[,\s]` used after the `h` / `uc` / `ub` prefix. -/
def isCommaSpace (c : Char) : Bool := c = ',' || isPySpace c

/-- The separator class `[x×\s,]` of `re.split` in `find_section`. -/
def isSepChar (c : Char) : Bool := c = 'x' || c = '×' || c = ',' || isPySpace c

/-- ASCII digit, modelling the regex class `\d`. -/
def isDigitChar (c : Char) : Bool := 48 ≤ c.toNat && c.toNat ≤ 57

/-- ASCII model of `str.lower`, character by character. -/
def pyLowerChar (c : Char) : Char :=
  if 65 ≤ c.toNat ∧ c.toNat ≤ 90 then Char.ofNat (c.toNat + 32) else c

/-- `str.lower` on a character list. -/
def pyLowerL (l : List Char) : List Char := l.map pyLowerChar

/-- `str.lower`. -/
def pyLower (s : String) : String := String.mk (pyLowerL s.data)

/-- `str.strip()` on a character list. -/
def pyStripL (l : List Char) : List Char :=
  ((l.dropWhile isPySpace).reverse.dropWhile isPySpace).reverse

/-- `str.strip()`. -/
def pyStrip (s : String) : String := String.mk (pyStripL s.data)

/-- `str.replace(' ', '')`: removes space characters only. -/
def removeSpaces (s : String) : String :=
  String.mk (s.data.filter (fun c => c != ' '))

/-- `.str.replace(r'\s+', '', regex=True)`: removes all whitespace. -/
def removeAllWS (s : String) : String :=
  String.mk (s.data.filter (fun c => !isPySpace c))

/-- `re.split(r'[x×\s,]+', s)` on a character list: a run of separator
characters is one split point; a run touching either end of the string
contributes an empty token there, and the empty string yields one empty
token. -/
def splitSeps : List Char → List (List Char)
  | [] => [[]]
  | c :: rest =>
    if isSepChar c then
      match rest with
      | [] => [[], []]
      | c2 :: _ => if isSepChar c2 then splitSeps rest else [] :: splitSeps rest
    else
      match splitSeps rest with
      | h :: t => (c :: h) :: t
      | [] => [[c]]

/-- `re.split(r'[x×\s,]+', s)`. -/
def pySplit (s : String) : List String := (splitSeps s.data).map String.mk

/-- Value of a list of decimal digits. -/
def digitsVal (l : List Char) : Nat := l.foldl (fun a c => a * 10 + (c.toNat - 48)) 0

/-- Model of Python `float(token)` on a signless token: decimal digits
with an optional fractional part (`"12"`, `"12.5"`, `"12."`, `".5"`). -/
def parseFloatCore (l : List Char) : Option ℚ :=
  let ip := l.takeWhile isDigitChar
  match l.dropWhile isDigitChar with
  | [] => if ip.isEmpty then none else some ((digitsVal ip : ℚ))
  | '.' :: fr =>
    let fp := fr.takeWhile isDigitChar
    if (fr.dropWhile isDigitChar).isEmpty then
      if ip.isEmpty && fp.isEmpty then none
      else some ((digitsVal ip : ℚ) + (digitsVal fp : ℚ) / ((10 : ℚ) ^ fp.length))
    else none
  | _ => none

/-- Model of Python `float(token)`: strips whitespace, then an optional
sign and a decimal number.  Exact rationals stand in for IEEE floats;
every comparison the program performs on these values is an equality of
numbers parsed from decimal text, which the rational model decides the
same way. -/
def pyFloat? (s : String) : Option ℚ :=
  match pyStripL s.data with
  | '+' :: r => parseFloatCore r
  | '-' :: r => (parseFloatCore r).map (fun q => -q)
  | r => parseFloatCore r

/-- One scanning pass of `re.findall(r"\d+(?:\.\d+)?", txt)`.  The fuel
argument (instantiated with the length of the input, an upper bound on
the number of steps: every step consumes at least one character) keeps
the recursion structural so that the kernel can evaluate it. -/
def scanAux : Nat → List Char → List (List Char)
  | 0, _ => []
  | _, [] => []
  | f + 1, c :: cs =>
    if isDigitChar c then
      match cs.dropWhile isDigitChar with
      | e :: d :: r2 =>
        if (e == '.') && isDigitChar d then
          ((c :: cs.takeWhile isDigitChar) ++ '.' :: d :: r2.takeWhile isDigitChar) ::
            scanAux f (r2.dropWhile isDigitChar)
        else (c :: cs.takeWhile isDigitChar) :: scanAux f (e :: d :: r2)
      | r1 => (c :: cs.takeWhile isDigitChar) :: scanAux f r1
    else scanAux f cs

/-- `re.findall(r"\d+(?:\.\d+)?", txt)`: the maximal numeric substrings
(integer or decimal), left to right. -/
def scanNums (l : List Char) : List (List Char) := scanAux l.length l

/-- The numeric tokens of a designation text, as strings. -/
def numTokens (s : String) : List String := (scanNums s.data).map String.mk

/-- Translation of `build_keys` in `_load_single_table`:
`lookup_key` joins the first two numeric tokens with `x`,
`full_lookup_key` the first three, both lowercased, empty on
insufficient tokens. -/
def build_keys (s : String) : String × String :=
  let nums := numTokens s
  let key2 := if 2 ≤ nums.length then nums.getD 0 "" ++ "x" ++ nums.getD 1 "" else ""
  let key3 := if 3 ≤ nums.length then
      nums.getD 0 "" ++ "x" ++ nums.getD 1 "" ++ "x" ++ nums.getD 2 "" else ""
  (pyLower key2, pyLower key3)

/-- Translation of `SectionDatabase._h_section_properties`, numbers as
exact rationals.  The source has no failure path and no guard on the
sign of `D - 2T`. -/
def h_section_properties (D B T t : ℚ) : ℚ × ℚ :=
  let A_flange := B * T
  let A_top := A_flange
  let A_bot := A_flange
  let A_web := t * (D - 2 * T)
  let A := A_top + A_bot + A_web
  let y_top := D / 2 - T / 2
  let y_bot := -y_top
  let I_top_centroid := B * T ^ 3 / 12
  let I_bot_centroid := I_top_centroid
  let I_web_centroid := t * (D - 2 * T) ^ 3 / 12
  let I_top := I_top_centroid + A_top * y_top ^ 2
  let I_bot := I_bot_centroid + A_bot * y_bot ^ 2
  let I_web := I_web_centroid
  let Ixx := I_top + I_bot + I_web
  (A, Ixx)

/-- A cell value in a loaded table: numeric, textual, or missing
(`NaN`/`None`). -/
inductive Value where
  | num (q : ℚ)
  | str (s : String)
  | null
deriving DecidableEq

/-- A row of a loaded table after `_load_single_table`: the (forward
filled, non-null) `Section designation` column, the auxiliary
`section_designation_extra` column, the remaining data columns in sheet
order, and the three derived columns `lookup_key`, `full_lookup_key`
and `extra_numeric` appended by the loader.  A sheet without the
auxiliary column is the special case where `extraText` is `null` on
every row (observationally identical for `find_section`). -/
structure Record where
  designation : String
  extraText : Value
  otherProps : List (String × Value)
  lookup_key : String
  full_lookup_key : String
  extra_numeric : Option ℚ
deriving DecidableEq

/-- The `self.tables` dictionary: at most one table per section type. -/
structure DB where
  uc : Option (List Record)
  ub : Option (List Record)

/-- `self.tables[section_type]` for `section_type ∈ {"UC", "UB"}`. -/
def DB.getTable (db : DB) (st : String) : Option (List Record) :=
  if st = "UC" then db.uc else db.ub

/-- The dictionary returned by `find_section` (`sect` renders the
source's `section` field, a Lean keyword). -/
structure LookupResult where
  type : String
  sect : String
  properties : List (String × Value)
deriving DecidableEq

/-- `pd.Series` view of a row, in column order. -/
def optValue : Option ℚ → Value
  | none => .null
  | some q => .num q

/-- `row.items()`: every column of the row with its value. -/
def rowItems (r : Record) : List (String × Value) :=
  ("Section designation", .str r.designation) ::
  ("section_designation_extra", r.extraText) ::
  r.otherProps ++
  [("lookup_key", .str r.lookup_key),
   ("full_lookup_key", .str r.full_lookup_key),
   ("extra_numeric", optValue r.extra_numeric)]

/-- `pd.notna`. -/
def valueNotna : Value → Bool
  | .null => false
  | _ => true

/-- `_format_row`: keep only the non-null entries. -/
def formatRow (items : List (String × Value)) : List (String × Value) :=
  items.filter (fun kv => valueNotna kv.2)

/-- `row.drop(keys)`. -/
def rowDrop (items : List (String × Value)) (keys : List String) : List (String × Value) :=
  items.filter (fun kv => !(keys.contains kv.1))

/-- `.astype(str)` on one cell: a missing value renders as `"nan"`.  A
numeric cell uses the rational printer; like Python's float printer it
never starts with the letter `x`, which is all the tier-(c) comparison
below can observe of it. -/
def valueAstype : Value → String
  | .num q => toString q
  | .str s => s
  | .null => "nan"

/-- One character of `re.search`: `.` is a wildcard (anything except a
newline), everything else is literal.  This covers every pattern free
of the other regex metacharacters; `regexSafe` below names that
restriction. -/
def charMatch (p c : Char) : Bool := if p = '.' then c != '\n' else p == c

/-- Does the pattern match a prefix of the text? -/
def matchHere : List Char → List Char → Bool
  | [], _ => true
  | _ :: _, [] => false
  | p :: ps, c :: cs => charMatch p c && matchHere ps cs

/-- `re.search(pat, s) is not None`, for patterns whose only
metacharacter is `.` — the semantics of `Series.str.contains(pat)`
(which treats its argument as a regular expression). -/
def reSearch (pat : List Char) : List Char → Bool
  | [] => matchHere pat []
  | s@(_ :: cs) => matchHere pat s || reSearch pat cs

/-- Plain (literal) prefix test, for the substring notion the spec
speaks about. -/
def prefixHere : List Char → List Char → Bool
  | [], _ => true
  | _ :: _, [] => false
  | p :: ps, c :: cs => p == c && prefixHere ps cs

/-- Literal substring containment of `pat` in `hay` — the relation the
specification's "contains `key` as a substring" describes. -/
def containsSubL (pat : List Char) : List Char → Bool
  | [] => prefixHere pat []
  | s@(_ :: cs) => prefixHere pat s || containsSubL pat cs

/-- Literal substring containment on strings. -/
def containsSub (hay pat : String) : Bool := containsSubL pat.data hay.data

/-- Characters on which the mini regex engine `reSearch` agrees with a
full engine: everything except the metacharacters other than `.`. -/
def regexSafeChar (c : Char) : Bool :=
  !(['*', '+', '?', '(', ')', '[', ']', '|', '^', '$', '\\',
     Char.ofNat 123, Char.ofNat 125].contains c)

/-- A pattern within the mini engine's faithful fragment. -/
def regexSafe (s : String) : Bool := s.data.all regexSafeChar

/-- The error messages raised by `find_section`. -/
def hDimsMsg : String :=
  "H-section requires 4 dimensions: D x B x T x t (e.g. 'h 300x150x20x10')"

/-- Error for H dimensions that do not parse as numbers. -/
def hNumMsg : String := "Could not parse H-section dimensions as numbers"

/-- Error for inputs matching none of the recognized prefixes. -/
def prefixMsg : String :=
  "Input must start with 'uc' or 'ub' followed by a designation, e.g. 'uc 356x406' or 'ub,914x305x576'"

/-- Error for a section type with no loaded table. -/
def tableMsg (st : String) : String := st ++ " table not loaded"

/-- Error when both matching tiers are empty. -/
def notFoundMsg (st designation : String) : String :=
  st ++ " section '" ++ designation ++ "' not found"

/-- The tail `[,\s]*(.+)$` of both prefix regexes, applied to the text
after the prefix letter(s).  The input to `find_section` is stripped
first, so `$` never sits before a trailing newline and the greedy
`[,\s]*` backtracks at most one character (when it would swallow the
whole remainder, whose last character is then a non-whitespace
separator, i.e. a comma). -/
def tailGroup (rest : List Char) : Option (List Char) :=
  let rem := rest.dropWhile isCommaSpace
  match rem with
  | [] =>
    match rest.getLast? with
    | some c => if c = '\n' then none else some [c]
    | none => none
  | _ :: _ => if rem.contains '\n' then none else some rem

/-- `re.match(r"^\s*h\s*[,\s]*(.+)$", input_lower)`, returning group 1. -/
def hMatchL (s : List Char) : Option (List Char) :=
  match s.dropWhile isPySpace with
  | [] => none
  | c :: rest => if c = 'h' then tailGroup rest else none

/-- `re.match(r"^\s*(uc|ub)\s*[,\s]*(.+)$", input_lower)`, returning
the uppercased group 1 and group 2. -/
def ucubMatchL (s : List Char) : Option (String × List Char) :=
  match s.dropWhile isPySpace with
  | c :: c2 :: rest =>
    if c = 'u' then
      if c2 = 'c' then (tailGroup rest).map (fun g => ("UC", g))
      else if c2 = 'b' then (tailGroup rest).map (fun g => ("UB", g))
      else none
    else none
  | _ => none

/-- `input_string.lower().strip()` as a character list. -/
def normInput (s : String) : List Char := (pyStrip (pyLower s)).data

/-- The H branch of `find_section`, given group 1 of the H regex:
`designation = group.strip()`, `parts = re.split(sep, designation)`;
fewer than four tokens is the insufficient-dimensions error, a first
through fourth token that does not parse is the non-numeric error,
otherwise the first four parsed values feed the H computation (later
tokens are ignored) and no table is consulted. -/
def hBranch (g : List Char) : Except String LookupResult :=
  if (pySplit (pyStrip (String.mk g))).length < 4 then .error hDimsMsg
  else
    match pyFloat? ((pySplit (pyStrip (String.mk g))).getD 0 ""),
          pyFloat? ((pySplit (pyStrip (String.mk g))).getD 1 ""),
          pyFloat? ((pySplit (pyStrip (String.mk g))).getD 2 ""),
          pyFloat? ((pySplit (pyStrip (String.mk g))).getD 3 "") with
    | some D, some B, some T, some t =>
      .ok { type := "H-BuiltUp", sect := "h " ++ pyStrip (String.mk g),
            properties := [("Area (A) (mm^2)", Value.num (h_section_properties D B T t).1),
                           ("Second moment of area (Ixx) (mm^4)",
                             Value.num (h_section_properties D B T t).2)] }
    | _, _, _, _ => .error hNumMsg

/-- The query key of step 2: `parts[0] + 'x' + parts[1]` when at least
two tokens were supplied, else the whole designation, spaces removed
and lowercased. -/
def deriveKey (designation : String) (parts : List String) : String :=
  if 2 ≤ parts.length then pyLower (removeSpaces (parts.getD 0 "" ++ "x" ++ parts.getD 1 ""))
  else pyLower (removeSpaces designation)

/-- Tier A (`lookup_key == key`), falling back to Tier B
(`str.contains(key)`, i.e. regex search) when Tier A is empty. -/
def findCandidates (rows : List Record) (key : String) : List Record :=
  let exact := rows.filter (fun r => r.lookup_key == key)
  if exact.isEmpty then rows.filter (fun r => reSearch key.data r.lookup_key.data)
  else exact

/-- The refined full key of disambiguation tier (a). -/
def fullKeyOf (p0 p1 p2 : String) : String :=
  pyLower (removeSpaces (p0 ++ "x" ++ p1 ++ "x" ++ p2))

/-- The normalized comparison value `"x" + third_raw.strip().replace(' ','').lower()`
of tier (c). -/
def thirdNorm (third_raw : String) : String :=
  "x" ++ pyLower (removeSpaces (pyStrip third_raw))

/-- The normalized `section_designation_extra` cell of tier (c). -/
def extraTextNorm (v : Value) : String :=
  pyLower (removeAllWS (pyStrip (valueAstype v)))

/-- The disambiguation block of `find_section` (source lines 200-238):
given the non-empty candidate list `m0 :: ms`, pick the winning row and
report whether a refinement tier produced it (the flag decides which
key columns are dropped from the output). -/
def pickWinner (m0 : Record) (ms : List Record) (parts : List String) : Record × Bool :=
  if 3 ≤ parts.length then
    match (if (!(parts.getD 2 "").isEmpty) &&
              (m0 :: ms).any (fun r => !r.full_lookup_key.isEmpty) then
        (m0 :: ms).filter (fun r =>
          r.full_lookup_key == fullKeyOf (parts.getD 0 "") (parts.getD 1 "") (parts.getD 2 ""))
      else []) with
    | r :: _ => (r, true)
    | [] =>
      match (match pyFloat? (parts.getD 2 "") with
             | some v => (m0 :: ms).filter (fun (r : Record) => r.extra_numeric == some v)
             | none => []) with
      | r :: _ => (r, true)
      | [] =>
        match (m0 :: ms).filter (fun (r : Record) =>
            extraTextNorm r.extraText == thirdNorm (parts.getD 2 "")) with
        | r :: _ => (r, true)
        | [] => (m0, false)
  else (m0, false)

/-- The key columns dropped from the winning row before formatting:
the refinement branches drop both derived string keys, the fallback
branch drops only `lookup_key`. -/
def droppedKeys (flag : Bool) : List String :=
  if flag then ["lookup_key", "full_lookup_key"] else ["lookup_key"]

/-- The success dictionary of the UC/UB branch. -/
def mkLookupResult (st designation : String) (w : Record) (flag : Bool) : LookupResult :=
  { type := st, sect := designation,
    properties := formatRow (rowDrop (rowItems w) (droppedKeys flag)) }

/-- The UC/UB branch of `find_section`, given the section type and
group 2 of the prefix regex. -/
def lookupBranch (db : DB) (st : String) (g : List Char) : Except String LookupResult :=
  match db.getTable st with
  | none => .error (tableMsg st)
  | some rows =>
    match findCandidates rows
        (deriveKey (pyStrip (String.mk g)) (pySplit (pyStrip (String.mk g)))) with
    | [] => .error (notFoundMsg st (pyStrip (String.mk g)))
    | m0 :: ms =>
      .ok (mkLookupResult st (pyStrip (String.mk g))
        (pickWinner m0 ms (pySplit (pyStrip (String.mk g)))).1
        (pickWinner m0 ms (pySplit (pyStrip (String.mk g)))).2)

/-- Translation of `SectionDatabase.find_section`: lower and strip the
input, try the H regex, then the `uc`/`ub` regex, else fail. -/
def find_section (db : DB) (input_string : String) : Except String LookupResult :=
  match hMatchL (normInput input_string) with
  | some g => hBranch g
  | none =>
    match ucubMatchL (normInput input_string) with
    | some (st, g) => lookupBranch db st g
    | none => .error prefixMsg

/-! ### Support lemmas -/

lemma data_empty : ("" : String).data = [] := rfl

lemma pyLower_eq_empty_iff (t : String) : pyLower t = "" ↔ t.data = [] := by
  simp [pyLower, pyLowerL, String.ext_iff, data_empty]

lemma append_x_data (a b : String) : (a ++ "x" ++ b).data = a.data ++ 'x' :: b.data := by
  have hx : ("x" : String).data = ['x'] := rfl
  simp [String.data_append, hx]

/-! ### Claim C5 -/

/-- Claim C5: for all inputs `D B T t`, the built-up H computation
returns `A = 2·B·T + t·(D−2T)` and
`Ixx = 2·(B·T³/12 + B·T·(D/2 − T/2)²) + t·(D−2T)³/12`; in particular
at `(300, 150, 20, 10)` the area is `8600`. -/
theorem C5_h_formula :
    (∀ D B T t : ℚ,
      (h_section_properties D B T t).1 = 2 * B * T + t * (D - 2 * T) ∧
      (h_section_properties D B T t).2 =
        2 * (B * T ^ 3 / 12 + B * T * (D / 2 - T / 2) ^ 2) + t * (D - 2 * T) ^ 3 / 12) ∧
    (h_section_properties 300 150 20 10).1 = 8600 := by
  refine ⟨fun D B T t => ⟨?_, ?_⟩, ?_⟩
  · simp only [h_section_properties]; ring
  · simp only [h_section_properties]; ring
  · norm_num [h_section_properties]

/-! ### Claim C9 -/

/-- Database with no loaded tables, for the degenerate H computation. -/
def c9db : DB := ⟨none, none⟩

/-- Claim C9: the H computation is a total pure function; it has no
guard, so degenerate inputs with `D ≤ 2T` (here `D = 10`, `T = 10`,
giving a negative web term `t·(D−2T)³/12 = −500/3`) still return the
formula's values, end to end through `find_section` without error, and
the result is deterministic. -/
theorem C9_h_total :
    (∀ D B T t : ℚ, h_section_properties D B T t =
      (2 * B * T + t * (D - 2 * T),
       2 * (B * T ^ 3 / 12 + B * T * (D / 2 - T / 2) ^ 2) + t * (D - 2 * T) ^ 3 / 12)) ∧
    h_section_properties 10 5 10 2 = (80, 2000 / 3) ∧
    find_section c9db "h 10x5x10x2" =
      .ok { type := "H-BuiltUp", sect := "h 10x5x10x2",
            properties := [("Area (A) (mm^2)", Value.num (h_section_properties 10 5 10 2).1),
                           ("Second moment of area (Ixx) (mm^4)",
                             Value.num (h_section_properties 10 5 10 2).2)] } ∧
    (∀ D B T t : ℚ, h_section_properties D B T t = h_section_properties D B T t) := by
  refine ⟨fun D B T t => ?_, ?_, rfl, fun _ _ _ _ => rfl⟩
  · simp only [h_section_properties, Prod.mk.injEq]
    constructor <;> ring
  · simp only [h_section_properties, Prod.mk.injEq]
    constructor <;> norm_num

/-- An input matching the `uc`/`ub` regex starts (after whitespace)
with `u`, so the `h` regex, tried first by `find_section`, fails. -/
lemma hMatch_none_of_ucub {s : List Char} {p : String × List Char}
    (h : ucubMatchL s = some p) : hMatchL s = none := by
  unfold ucubMatchL at h
  unfold hMatchL
  cases hd : s.dropWhile isPySpace with
  | nil => rfl
  | cons c rest =>
    rw [hd] at h
    by_cases hc : c = 'h'
    · subst hc
      cases rest with
      | nil => simp at h
      | cons c2 rest2 => simp at h
    · simp [hc]

lemma find_section_of_ucub {db : DB} {input st : String} {g : List Char}
    (hu : ucubMatchL (normInput input) = some (st, g)) :
    find_section db input = lookupBranch db st g := by
  simp only [find_section, hMatch_none_of_ucub hu, hu]

/-! ### Claims C7 and C10: the H branch -/

lemma mem_take4 {l : List String} (h : 4 ≤ l.length) (p : String) :
    p ∈ l.take 4 ↔
      p = l.getD 0 "" ∨ p = l.getD 1 "" ∨ p = l.getD 2 "" ∨ p = l.getD 3 "" := by
  match l, h with
  | a :: b :: c :: d :: rest, _ => simp [List.getD]

lemma find_section_of_hMatch {db : DB} {input : String} {g : List Char}
    (hm : hMatchL (normInput input) = some g) :
    find_section db input = hBranch g := by
  simp only [find_section, hm]

/-- Claim C7: an input recognized as a built-up H request fails with
the insufficient-dimensions error exactly when splitting the stripped
remainder on the separator class gives fewer than four tokens, fails
with the non-numeric error exactly when some of the first four tokens
does not parse as a number, and otherwise succeeds. -/
theorem C7_h_parse_errors (db : DB) (input : String) (g : List Char)
    (hm : hMatchL (normInput input) = some g) :
    ((pySplit (pyStrip (String.mk g))).length < 4 →
        find_section db input = .error hDimsMsg) ∧
    (4 ≤ (pySplit (pyStrip (String.mk g))).length →
      ((∃ p ∈ (pySplit (pyStrip (String.mk g))).take 4, pyFloat? p = none) →
        find_section db input = .error hNumMsg) ∧
      ((∀ p ∈ (pySplit (pyStrip (String.mk g))).take 4, (pyFloat? p).isSome) →
        ∃ res, find_section db input = .ok res)) := by
  rw [find_section_of_hMatch hm]
  refine ⟨fun hlen => ?_, fun hlen => ⟨fun hex => ?_, fun hall => ?_⟩⟩
  · simp only [hBranch, if_pos hlen]
  · rcases hex with ⟨p, hp, hpn⟩
    rw [mem_take4 hlen] at hp
    simp only [List.getD] at hp
    cases h0 : pyFloat? ((pySplit (pyStrip (String.mk g)))[0]?.getD "") <;>
    cases h1 : pyFloat? ((pySplit (pyStrip (String.mk g)))[1]?.getD "") <;>
    cases h2 : pyFloat? ((pySplit (pyStrip (String.mk g)))[2]?.getD "") <;>
    cases h3 : pyFloat? ((pySplit (pyStrip (String.mk g)))[3]?.getD "") <;>
      simp_all [hBranch, if_neg (Nat.not_lt.mpr hlen), List.getD]
    rcases hp with rfl | rfl | rfl | rfl <;> simp_all
  · have ha0 := hall _ ((mem_take4 hlen _).2 (Or.inl rfl))
    have ha1 := hall _ ((mem_take4 hlen _).2 (Or.inr (Or.inl rfl)))
    have ha2 := hall _ ((mem_take4 hlen _).2 (Or.inr (Or.inr (Or.inl rfl))))
    have ha3 := hall _ ((mem_take4 hlen _).2 (Or.inr (Or.inr (Or.inr rfl))))
    simp only [List.getD] at ha0 ha1 ha2 ha3
    cases h0 : pyFloat? ((pySplit (pyStrip (String.mk g)))[0]?.getD "") <;>
    cases h1 : pyFloat? ((pySplit (pyStrip (String.mk g)))[1]?.getD "") <;>
    cases h2 : pyFloat? ((pySplit (pyStrip (String.mk g)))[2]?.getD "") <;>
    cases h3 : pyFloat? ((pySplit (pyStrip (String.mk g)))[3]?.getD "") <;>
      simp_all [hBranch, if_neg (Nat.not_lt.mpr hlen), List.getD]

/-- Concrete H inputs for the C7 witness. -/
def c7db : DB := ⟨none, none⟩

/-- Witness for C7 at the concrete input `"h 300x150x20"` (three
tokens: the insufficient-dimensions error fires). -/
theorem C7_witness : find_section c7db "h 300x150x20" = .error hDimsMsg :=
  (C7_h_parse_errors c7db "h 300x150x20" ("300x150x20".data) rfl).1 (by decide)

/-- Claim C10: a successful H request returns type `"H-BuiltUp"`,
section `"h "` plus the stripped remainder, and exactly the two
area/Ixx properties computed from the first four tokens; every further
token is ignored and no table is consulted, so the result is the same
for every database. -/
theorem C10_h_result (input : String) (g : List Char) (d0 d1 d2 d3 : ℚ)
    (hm : hMatchL (normInput input) = some g)
    (hlen : 4 ≤ (pySplit (pyStrip (String.mk g))).length)
    (h0 : pyFloat? ((pySplit (pyStrip (String.mk g))).getD 0 "") = some d0)
    (h1 : pyFloat? ((pySplit (pyStrip (String.mk g))).getD 1 "") = some d1)
    (h2 : pyFloat? ((pySplit (pyStrip (String.mk g))).getD 2 "") = some d2)
    (h3 : pyFloat? ((pySplit (pyStrip (String.mk g))).getD 3 "") = some d3) :
    ∀ db db' : DB,
      find_section db input = find_section db' input ∧
      find_section db input = .ok {
        type := "H-BuiltUp",
        sect := "h " ++ pyStrip (String.mk g),
        properties := [("Area (A) (mm^2)", Value.num (h_section_properties d0 d1 d2 d3).1),
                       ("Second moment of area (Ixx) (mm^4)",
                         Value.num (h_section_properties d0 d1 d2 d3).2)] } := by
  have key : ∀ d : DB, find_section d input = .ok {
      type := "H-BuiltUp",
      sect := "h " ++ pyStrip (String.mk g),
      properties := [("Area (A) (mm^2)", Value.num (h_section_properties d0 d1 d2 d3).1),
                     ("Second moment of area (Ixx) (mm^4)",
                       Value.num (h_section_properties d0 d1 d2 d3).2)] } := by
    intro d
    rw [find_section_of_hMatch hm]
    simp only [hBranch, if_neg (Nat.not_lt.mpr hlen), h0, h1, h2, h3]
  exact fun db db' => ⟨(key db).trans (key db').symm, key db⟩

/-- Empty database for the C10 witness. -/
def c10dbA : DB := ⟨none, none⟩

/-- A non-trivial database for the C10 witness (its content is
irrelevant to an H request). -/
def c10dbB : DB := ⟨some [{
  designation := "1016 x 305 x 584",
  extraText := Value.null,
  otherProps := [],
  lookup_key := "1016x305",
  full_lookup_key := "1016x305x584",
  extra_numeric := none }], none⟩

/-- Witness for C10 at `"h 300x150x20x10x999"`: the fifth token is
ignored and the loaded tables play no role. -/
theorem C10_witness :
    find_section c10dbA "h 300x150x20x10x999" = find_section c10dbB "h 300x150x20x10x999" ∧
    find_section c10dbA "h 300x150x20x10x999" = .ok {
      type := "H-BuiltUp",
      sect := "h " ++ pyStrip (String.mk ("300x150x20x10x999".data)),
      properties := [("Area (A) (mm^2)", Value.num (h_section_properties 300 150 20 10).1),
                     ("Second moment of area (Ixx) (mm^4)",
                       Value.num (h_section_properties 300 150 20 10).2)] } :=
  C10_h_result "h 300x150x20x10x999" ("300x150x20x10x999".data) 300 150 20 10
    rfl (by decide) rfl rfl rfl rfl c10dbA c10dbB

/-! ### Claim C6 -/

/-- Claim C6: `build_keys` is total and deterministic; `key2` is the
lowercased join of the first two maximal numeric substrings and is
empty exactly when fewer than two exist, `key3` the join of the first
three, empty exactly when fewer than three exist. -/
theorem C6_build_keys (s : String) :
    build_keys s =
      (pyLower (if 2 ≤ (numTokens s).length then
          (numTokens s).getD 0 "" ++ "x" ++ (numTokens s).getD 1 "" else ""),
       pyLower (if 3 ≤ (numTokens s).length then
          (numTokens s).getD 0 "" ++ "x" ++ (numTokens s).getD 1 "" ++ "x" ++
            (numTokens s).getD 2 "" else "")) ∧
    ((build_keys s).1 = "" ↔ (numTokens s).length < 2) ∧
    ((build_keys s).2 = "" ↔ (numTokens s).length < 3) ∧
    build_keys s = build_keys s := by
  refine ⟨rfl, ?_, ?_, rfl⟩
  · by_cases h2 : 2 ≤ (numTokens s).length
    · constructor
      · intro h
        have h1 : (build_keys s).1 =
            pyLower ((numTokens s).getD 0 "" ++ "x" ++ (numTokens s).getD 1 "") := by
          simp [build_keys, h2]
        rw [h1, pyLower_eq_empty_iff, append_x_data] at h
        simp at h
      · intro h; omega
    · have h1 : (build_keys s).1 = "" := by
        simp only [build_keys]
        rw [if_neg h2]
        rfl
      rw [h1]
      simp [Nat.lt_of_not_le h2]
  · by_cases h3 : 3 ≤ (numTokens s).length
    · constructor
      · intro h
        have h1 : (build_keys s).2 =
            pyLower ((numTokens s).getD 0 "" ++ "x" ++ (numTokens s).getD 1 "" ++ "x" ++
              (numTokens s).getD 2 "") := by
          simp [build_keys, h3]
        rw [h1, pyLower_eq_empty_iff, append_x_data] at h
        simp at h
      · intro h; omega
    · have h1 : (build_keys s).2 = "" := by
        simp only [build_keys]
        rw [if_neg h3]
        rfl
      rw [h1]
      simp [Nat.lt_of_not_le h3]

/-! ### Claim C1 -/

/-- A catalog row carrying all three auxiliary disambiguation fields,
for exercising the output formatting. -/
def c1rec : Record := {
  designation := "356 x 406 x 283",
  extraText := Value.str "x 283",
  otherProps := [("Mass per metre        kg/m", Value.num 283)],
  lookup_key := "356x406",
  full_lookup_key := "356x406x283",
  extra_numeric := some 283 }

/-- UC table holding only `c1rec`. -/
def c1db : DB := ⟨some [c1rec], none⟩

/-- The result the code actually returns for `"uc 356x406"` against
`c1db`. -/
def c1res : LookupResult := {
  type := "UC",
  sect := "356x406",
  properties := [("Section designation", Value.str "356 x 406 x 283"),
                 ("section_designation_extra", Value.str "x 283"),
                 ("Mass per metre        kg/m", Value.num 283),
                 ("full_lookup_key", Value.str "356x406x283"),
                 ("extra_numeric", Value.num 283)] }

/-- Claim C1 is false on the code: a successful two-token lookup
returns properties that still contain `full_lookup_key` (the fallback
branch drops only `lookup_key`), and `extra_numeric` and
`section_designation_extra` are never dropped in any branch — the
claim says all four internal key fields are always excluded. -/
theorem C1_counterexample :
    find_section c1db "uc 356x406" = .ok c1res ∧
    "full_lookup_key" ∈ c1res.properties.map Prod.fst ∧
    "extra_numeric" ∈ c1res.properties.map Prod.fst ∧
    "section_designation_extra" ∈ c1res.properties.map Prod.fst :=
  ⟨rfl, by decide, by decide, by decide⟩

/-- Claim C1 as amended: for every successful UC/UB lookup the
properties are exactly the non-null fields of the winning record minus
the dropped key columns, where the dropped set is
`{lookup_key, full_lookup_key}` when a disambiguation tier selected
the winner and `{lookup_key}` alone for the fallback winner;
`extra_numeric` and `section_designation_extra` are retained whenever
non-null. -/
theorem C1_amended (db : DB) (input st : String) (g : List Char) (rows : List Record)
    (m0 : Record) (ms : List Record)
    (hu : ucubMatchL (normInput input) = some (st, g))
    (ht : db.getTable st = some rows)
    (hc : findCandidates rows
        (deriveKey (pyStrip (String.mk g)) (pySplit (pyStrip (String.mk g)))) = m0 :: ms) :
    ∃ res, find_section db input = .ok res ∧
      res.properties =
        formatRow (rowDrop (rowItems (pickWinner m0 ms (pySplit (pyStrip (String.mk g)))).1)
          (droppedKeys (pickWinner m0 ms (pySplit (pyStrip (String.mk g)))).2)) ∧
      ∀ k v, ((k, v) ∈ res.properties ↔
        ((k, v) ∈ rowItems (pickWinner m0 ms (pySplit (pyStrip (String.mk g)))).1 ∧
         valueNotna v = true ∧
         k ∉ droppedKeys (pickWinner m0 ms (pySplit (pyStrip (String.mk g)))).2)) := by
  rw [find_section_of_ucub hu]
  simp only [lookupBranch, ht, hc]
  refine ⟨_, rfl, rfl, ?_⟩
  intro k v
  simp [mkLookupResult, formatRow, rowDrop, List.mem_filter, List.contains, List.elem_iff]

/-- Witness for the amended C1 at the concrete two-token lookup of the
counterexample database. -/
theorem C1_witness :
    ∃ res, find_section c1db "uc 356x406" = .ok res ∧
      res.properties =
        formatRow (rowDrop (rowItems (pickWinner c1rec []
            (pySplit (pyStrip (String.mk ("356x406".data))))).1)
          (droppedKeys (pickWinner c1rec []
            (pySplit (pyStrip (String.mk ("356x406".data))))).2)) ∧
      ∀ k v, ((k, v) ∈ res.properties ↔
        ((k, v) ∈ rowItems (pickWinner c1rec []
            (pySplit (pyStrip (String.mk ("356x406".data))))).1 ∧
         valueNotna v = true ∧
         k ∉ droppedKeys (pickWinner c1rec []
            (pySplit (pyStrip (String.mk ("356x406".data))))).2)) :=
  C1_amended c1db "uc 356x406" "UC" ("356x406".data) [c1rec] c1rec [] rfl rfl rfl

/-! ### Claim C4 -/

/-- Claim C4: a two-token lookup with a non-empty candidate set
returns the first candidate in original row order (no disambiguation,
`lookup_key` alone dropped), and the function is deterministic. -/
theorem C4_two_token_fallback (db : DB) (input st : String) (g : List Char)
    (rows : List Record) (m0 : Record) (ms : List Record)
    (hu : ucubMatchL (normInput input) = some (st, g))
    (ht : db.getTable st = some rows)
    (hlen : (pySplit (pyStrip (String.mk g))).length = 2)
    (hc : findCandidates rows
        (deriveKey (pyStrip (String.mk g)) (pySplit (pyStrip (String.mk g)))) = m0 :: ms) :
    find_section db input = .ok (mkLookupResult st (pyStrip (String.mk g)) m0 false) ∧
    find_section db input = find_section db input := by
  refine ⟨?_, rfl⟩
  rw [find_section_of_ucub hu]
  simp only [lookupBranch, ht, hc]
  have hw : pickWinner m0 ms (pySplit (pyStrip (String.mk g))) = (m0, false) := by
    unfold pickWinner
    rw [if_neg (show ¬ 3 ≤ (pySplit (pyStrip (String.mk g))).length by omega)]
  rw [hw]

/-- First row of a two-variant group (C4 witness data). -/
def c4rec1 : Record := {
  designation := "356 x 406 x 1299",
  extraText := Value.null,
  otherProps := [("Mass per metre        kg/m", Value.num 1299)],
  lookup_key := "356x406",
  full_lookup_key := "356x406x1299",
  extra_numeric := none }

/-- Second row of the group (C4 witness data). -/
def c4rec2 : Record := {
  designation := "356 x 406",
  extraText := Value.str "x 1202",
  otherProps := [("Mass per metre        kg/m", Value.num 1202)],
  lookup_key := "356x406",
  full_lookup_key := "",
  extra_numeric := some 1202 }

/-- UC table with a two-row group sharing one `lookup_key`. -/
def c4db : DB := ⟨some [c4rec1, c4rec2], none⟩

/-- Witness for C4: `"uc 356x406"` against the two-row group returns
the first row. -/
theorem C4_witness :
    find_section c4db "uc 356x406" =
      .ok (mkLookupResult "UC" (pyStrip (String.mk ("356x406".data))) c4rec1 false) ∧
    find_section c4db "uc 356x406" = find_section c4db "uc 356x406" :=
  C4_two_token_fallback c4db "uc 356x406" "UC" ("356x406".data) [c4rec1, c4rec2]
    c4rec1 [c4rec2] rfl rfl rfl rfl

/-! ### Claim C3 -/

/-- The winning row always comes from the candidate list. -/
lemma pickWinner_mem (m0 : Record) (ms : List Record) (parts : List String) :
    (pickWinner m0 ms parts).1 ∈ m0 :: ms := by
  unfold pickWinner
  split
  · split
    · next r rest heq =>
      split at heq
      · exact List.mem_of_mem_filter (heq ▸ List.mem_cons_self r rest)
      · simp at heq
    · split
      · next r rest heq =>
        split at heq
        · exact List.mem_of_mem_filter (heq ▸ List.mem_cons_self r rest)
        · simp at heq
      · split
        · next r rest heq =>
          exact List.mem_of_mem_filter (heq ▸ List.mem_cons_self r rest)
        · exact List.mem_cons_self m0 ms
  · exact List.mem_cons_self m0 ms

/-- Claim C3: when some row's `lookup_key` equals the derived key, the
candidate set is exactly the equal-key rows — the containment fallback
is never consulted — and the returned winner is one of them, i.e. a
Tier-A row. -/
theorem C3_exact_precedence (db : DB) (input st : String) (g : List Char)
    (rows : List Record)
    (hu : ucubMatchL (normInput input) = some (st, g))
    (ht : db.getTable st = some rows)
    (hex : rows.filter (fun r => r.lookup_key ==
        deriveKey (pyStrip (String.mk g)) (pySplit (pyStrip (String.mk g)))) ≠ []) :
    findCandidates rows (deriveKey (pyStrip (String.mk g)) (pySplit (pyStrip (String.mk g)))) =
      rows.filter (fun r => r.lookup_key ==
        deriveKey (pyStrip (String.mk g)) (pySplit (pyStrip (String.mk g)))) ∧
    ∃ w flag, find_section db input = .ok (mkLookupResult st (pyStrip (String.mk g)) w flag) ∧
      w.lookup_key = deriveKey (pyStrip (String.mk g)) (pySplit (pyStrip (String.mk g))) := by
  have h1 : findCandidates rows
      (deriveKey (pyStrip (String.mk g)) (pySplit (pyStrip (String.mk g)))) =
      rows.filter (fun r => r.lookup_key ==
        deriveKey (pyStrip (String.mk g)) (pySplit (pyStrip (String.mk g)))) := by
    unfold findCandidates
    rw [if_neg (by simpa [List.isEmpty_iff] using hex)]
  refine ⟨h1, ?_⟩
  rw [find_section_of_ucub hu]
  simp only [lookupBranch, ht]
  cases hE : rows.filter (fun r => r.lookup_key ==
      deriveKey (pyStrip (String.mk g)) (pySplit (pyStrip (String.mk g)))) with
  | nil => exact absurd hE hex
  | cons m0 ms =>
    rw [h1.trans hE]
    refine ⟨_, _, rfl, ?_⟩
    have hmem := pickWinner_mem m0 ms (pySplit (pyStrip (String.mk g)))
    rw [← hE] at hmem
    exact eq_of_beq (List.mem_filter.1 hmem).2

/-- A row whose `lookup_key` merely contains `"1016x305"` (C3 witness
data); it precedes the exact row in the table. -/
def c3rec1 : Record := {
  designation := "11016 x 3055 x 999",
  extraText := Value.null,
  otherProps := [],
  lookup_key := "11016x3055",
  full_lookup_key := "11016x3055x999",
  extra_numeric := none }

/-- The exact-key row (C3 witness data). -/
def c3rec2 : Record := {
  designation := "1016 x 305 x 584",
  extraText := Value.null,
  otherProps := [("Mass per metre        kg/m", Value.num 584)],
  lookup_key := "1016x305",
  full_lookup_key := "1016x305x584",
  extra_numeric := none }

/-- UB table for the C3 witness. -/
def c3db : DB := ⟨none, some [c3rec1, c3rec2]⟩

/-- Witness for C3: `"ub 1016x305"` hits the exact row even though a
substring-superset row comes first in the table. -/
theorem C3_witness :
    findCandidates [c3rec1, c3rec2]
      (deriveKey (pyStrip (String.mk ("1016x305".data)))
        (pySplit (pyStrip (String.mk ("1016x305".data))))) =
      [c3rec1, c3rec2].filter (fun r => r.lookup_key ==
        deriveKey (pyStrip (String.mk ("1016x305".data)))
          (pySplit (pyStrip (String.mk ("1016x305".data))))) ∧
    ∃ w flag, find_section c3db "ub 1016x305" =
        .ok (mkLookupResult "UB" (pyStrip (String.mk ("1016x305".data))) w flag) ∧
      w.lookup_key = deriveKey (pyStrip (String.mk ("1016x305".data)))
        (pySplit (pyStrip (String.mk ("1016x305".data)))) :=
  C3_exact_precedence c3db "ub 1016x305" "UB" ("1016x305".data) [c3rec1, c3rec2]
    rfl rfl (by decide)

/-! ### Claim C8 -/

/-- A single catalog row for the C8 analysis. -/
def c8rec : Record := {
  designation := "305 x 406 x 283",
  extraText := Value.null,
  otherProps := [("Mass per metre        kg/m", Value.num 283)],
  lookup_key := "305x406",
  full_lookup_key := "305x406x283",
  extra_numeric := none }

/-- UC table holding only `c8rec`. -/
def c8db : DB := ⟨some [c8rec], none⟩

/-- Claim C8 is false on the code as stated: for the query
`"uc 3.5x406"` the derived key `"3.5x406"` neither equals nor occurs
as a literal substring of the only row's `lookup_key` `"305x406"`, so
the claim's iff demands the not-found failure — but
`Series.str.contains` treats the key as a regular expression, the `.`
matches `0`, and the lookup succeeds. -/
theorem C8_counterexample :
    containsSub c8rec.lookup_key "3.5x406" = false ∧
    (c8rec.lookup_key == "3.5x406") = false ∧
    deriveKey (pyStrip (String.mk ("3.5x406".data)))
      (pySplit (pyStrip (String.mk ("3.5x406".data)))) = "3.5x406" ∧
    find_section c8db "uc 3.5x406" =
      .ok (mkLookupResult "UC" "3.5x406" c8rec false) :=
  ⟨rfl, rfl, rfl, rfl⟩

/-- Claim C8 as amended: the lookup fails with the not-found message
(carrying the section type and the exact designation) iff no row's
`lookup_key` equals the derived key and no row's `lookup_key` matches
it under `str.contains`'s regex search — which coincides with literal
substring containment exactly when the key is free of regex
metacharacters other than `.` (the `regexSafe` hypothesis keeps the
statement inside the fragment where the embedded engine is faithful). -/
theorem C8_amended (db : DB) (input st : String) (g : List Char) (rows : List Record)
    (hu : ucubMatchL (normInput input) = some (st, g))
    (ht : db.getTable st = some rows)
    (_hsafe : regexSafe (deriveKey (pyStrip (String.mk g))
        (pySplit (pyStrip (String.mk g)))) = true) :
    (find_section db input = .error (notFoundMsg st (pyStrip (String.mk g))) ↔
      (rows.filter (fun r => r.lookup_key ==
          deriveKey (pyStrip (String.mk g)) (pySplit (pyStrip (String.mk g)))) = [] ∧
       rows.filter (fun r => reSearch
          (deriveKey (pyStrip (String.mk g)) (pySplit (pyStrip (String.mk g)))).data
          r.lookup_key.data) = [])) := by
  rw [find_section_of_ucub hu]
  simp only [lookupBranch, ht]
  constructor
  · intro h
    cases hE : findCandidates rows
        (deriveKey (pyStrip (String.mk g)) (pySplit (pyStrip (String.mk g)))) with
    | cons m0 ms => rw [hE] at h; simp at h
    | nil =>
      unfold findCandidates at hE
      by_cases hA : rows.filter (fun r => r.lookup_key ==
          deriveKey (pyStrip (String.mk g)) (pySplit (pyStrip (String.mk g)))) = []
      · refine ⟨hA, ?_⟩
        rwa [if_pos (by simpa [List.isEmpty_iff] using hA)] at hE
      · rw [if_neg (by simpa [List.isEmpty_iff] using hA)] at hE
        exact absurd hE hA
  · rintro ⟨hA, hB⟩
    have hE : findCandidates rows
        (deriveKey (pyStrip (String.mk g)) (pySplit (pyStrip (String.mk g)))) = [] := by
      unfold findCandidates
      rw [if_pos (by simpa [List.isEmpty_iff] using hA)]
      exact hB
    rw [hE]

/-- Witness for the amended C8: `"uc 999x999"` against `c8db` matches
no row by equality or containment, so the not-found error (with type
and designation) is raised. -/
theorem C8_witness :
    find_section c8db "uc 999x999" =
      .error (notFoundMsg "UC" (pyStrip (String.mk ("999x999".data)))) :=
  (C8_amended c8db "uc 999x999" "UC" ("999x999".data) [c8rec] rfl rfl rfl).mpr ⟨rfl, rfl⟩

/-! ### Claim C2 -/

/-- Every token produced by the numeric scanner is non-empty and made
of digits and at most one dot. -/
lemma scanAux_shape : ∀ (f : Nat) (l tok : List Char), tok ∈ scanAux f l →
    tok ≠ [] ∧ ∀ c ∈ tok, isDigitChar c = true ∨ c = '.' := by
  intro f
  induction f with
  | zero => intro l tok h; simp [scanAux] at h
  | succ f ih =>
    intro l tok h
    cases l with
    | nil => simp [scanAux] at h
    | cons c cs =>
      rw [scanAux] at h
      by_cases hc : isDigitChar c = true
      · rw [if_pos hc] at h
        have headShape : ∀ tail : List Char,
            (∀ ch ∈ tail, isDigitChar ch = true ∨ ch = '.') →
            tok = (c :: cs.takeWhile isDigitChar) ++ tail →
            tok ≠ [] ∧ ∀ ch ∈ tok, isDigitChar ch = true ∨ ch = '.' := by
          intro tail htail htok
          subst htok
          refine ⟨by simp, ?_⟩
          intro ch hch
          rcases List.mem_append.1 hch with hch | hch
          · rcases List.mem_cons.1 hch with rfl | hch
            · exact Or.inl hc
            · exact Or.inl (List.mem_takeWhile_imp hch)
          · exact htail ch hch
        split at h
        · split at h
          · next d r2 _ hdot =>
            rcases List.mem_cons.1 h with rfl | h
            · refine headShape ('.' :: d :: r2.takeWhile isDigitChar) ?_ rfl
              intro ch hch
              rcases List.mem_cons.1 hch with rfl | hch
              · exact Or.inr rfl
              · rcases List.mem_cons.1 hch with rfl | hch
                · exact Or.inl (Bool.and_elim_right hdot)
                · exact Or.inl (List.mem_takeWhile_imp hch)
            · exact ih _ _ h
          · rcases List.mem_cons.1 h with rfl | h
            · exact headShape [] (by simp) (by simp)
            · exact ih _ _ h
        · rcases List.mem_cons.1 h with rfl | h
          · exact headShape [] (by simp) (by simp)
          · exact ih _ _ h
      · rw [if_neg hc] at h
        exact ih _ _ h

/-- Characters that are digits or dots are unchanged by lowercasing. -/
lemma pyLowerChar_digit_dot {c : Char} (h : isDigitChar c = true ∨ c = '.') :
    pyLowerChar c = c := by
  rcases h with h | rfl
  · have h' : ¬ (65 ≤ c.toNat ∧ c.toNat ≤ 90) := by
      simp [isDigitChar] at h
      omega
    simp [pyLowerChar, h']
  · rfl

/-- The third derived key is empty or ends in a digit-or-dot character. -/
lemma build_keys_snd_shape (s : String) :
    (build_keys s).2 = "" ∨
    ∃ c, ((build_keys s).2).data.getLast? = some c ∧ (isDigitChar c = true ∨ c = '.') := by
  by_cases h3 : 3 ≤ (numTokens s).length
  · right
    have hkey : (build_keys s).2 = pyLower ((numTokens s).getD 0 "" ++ "x" ++
        (numTokens s).getD 1 "" ++ "x" ++ (numTokens s).getD 2 "") := by
      simp [build_keys, h3]
    have h2lt : 2 < (scanNums s.data).length := by
      have h' := h3
      simp only [numTokens, List.length_map] at h'
      omega
    have hgd : (numTokens s)[2]?.getD "" = String.mk ((scanNums s.data)[2]) := by
      simp [numTokens, List.getElem?_map, List.getElem?_eq_getElem h2lt]
    have htokmem : (scanNums s.data)[2] ∈ scanNums s.data := List.getElem_mem h2lt
    obtain ⟨hne, hchars⟩ := scanAux_shape _ _ _ htokmem
    obtain ⟨c0, hc0⟩ : ∃ a, ((scanNums s.data)[2]).getLast? = some a :=
      Option.isSome_iff_exists.mp (List.getLast?_isSome.mpr hne)
    have hc0mem : c0 ∈ (scanNums s.data)[2] := by
      rcases List.getLast?_eq_some_iff.1 hc0 with ⟨ys, hys⟩
      rw [hys]
      simp
    have hc0shape := hchars c0 hc0mem
    refine ⟨c0, ?_, hc0shape⟩
    rw [hkey]
    have hdata : (pyLower ((numTokens s).getD 0 "" ++ "x" ++
        (numTokens s).getD 1 "" ++ "x" ++ (numTokens s).getD 2 "")).data =
        pyLowerL (((numTokens s).getD 0 "" ++ "x" ++ (numTokens s).getD 1 "" ++ "x").data
          ++ ((scanNums s.data)[2])) := by
      simp [pyLower, String.data_append, hgd]
    rw [hdata, pyLowerL, List.getLast?_map, List.getLast?_append, hc0]
    simp [Option.or, pyLowerChar_digit_dot hc0shape]
  · left
    simp only [build_keys]
    rw [if_neg h3]
    rfl

lemma fullKeyOf_data (p0 p1 p2 : String) :
    (fullKeyOf p0 p1 p2).data =
      pyLowerL (List.filter (fun c => c != ' ')
        (p0.data ++ 'x' :: p1.data ++ 'x' :: p2.data)) := by
  have hx : ("x" : String).data = ['x'] := rfl
  simp [fullKeyOf, pyLower, removeSpaces, String.data_append, hx]

/-- The refined key built from an empty third token ends in `x`. -/
lemma fullKeyOf_empty_third_last (p0 p1 : String) :
    (fullKeyOf p0 p1 "").data.getLast? = some 'x' := by
  rw [fullKeyOf_data]
  have h1 : p0.data ++ 'x' :: p1.data ++ 'x' :: ("" : String).data
      = (p0.data ++ 'x' :: p1.data) ++ ['x'] := by
    simp [data_empty]
  rw [h1, List.filter_append]
  have h2 : List.filter (fun c => c != ' ') ['x'] = ['x'] := rfl
  rw [h2, pyLowerL, List.map_append]
  have h3 : List.map pyLowerChar ['x'] = ['x'] := rfl
  rw [h3]
  exact List.getLast?_concat _

/-- The refined key is never the empty string: it keeps its `x`
separators. -/
lemma fullKeyOf_ne_empty (p0 p1 p2 : String) : fullKeyOf p0 p1 p2 ≠ "" := by
  intro h
  have hd : (fullKeyOf p0 p1 p2).data = [] := by rw [h]
  rw [fullKeyOf_data] at hd
  have hmem : 'x' ∈ List.filter (fun c => c != ' ')
      (p0.data ++ 'x' :: p1.data ++ 'x' :: p2.data) := by
    rw [List.mem_filter]
    exact ⟨by simp, rfl⟩
  have : pyLowerChar 'x' ∈ pyLowerL (List.filter (fun c => c != ' ')
      (p0.data ++ 'x' :: p1.data ++ 'x' :: p2.data)) :=
    List.mem_map_of_mem pyLowerChar hmem
  rw [hd] at this
  simp at this

/-- The dataset ingestion contract of the specification: each record's
derived string keys are exactly what `build_keys` computes from its
designation. -/
def recordWF (r : Record) : Prop :=
  build_keys r.designation = (r.lookup_key, r.full_lookup_key)

/-- Tier (a) of the specification's disambiguation order: full-key
equality with the refined key. -/
def selA (cands : List Record) (parts : List String) : List Record :=
  cands.filter (fun r =>
    r.full_lookup_key == fullKeyOf (parts.getD 0 "") (parts.getD 1 "") (parts.getD 2 ""))

/-- Tier (b): equality of `extra_numeric` with the parsed third token
(empty when the token does not parse). -/
def selB (cands : List Record) (parts : List String) : List Record :=
  match pyFloat? (parts.getD 2 "") with
  | some v => cands.filter (fun (r : Record) => r.extra_numeric == some v)
  | none => []

/-- Tier (c): equality of the normalized extra text with
`"x" + token2`. -/
def selC (cands : List Record) (parts : List String) : List Record :=
  cands.filter (fun (r : Record) =>
    extraTextNorm r.extraText == thirdNorm (parts.getD 2 ""))

/-- The claim's description of disambiguation: the first tier among
(a), (b), (c) with a non-empty selection wins; if all are empty the
whole candidate set remains (and its first record is returned). -/
def specTierSel (cands : List Record) (parts : List String) : List Record :=
  if selA cands parts ≠ [] then selA cands parts
  else if selB cands parts ≠ [] then selB cands parts
  else if selC cands parts ≠ [] then selC cands parts
  else cands

/-- Under the ingestion contract the guard of the code's tier (a) — a
non-empty third token and some candidate with a non-empty
`full_lookup_key` — is semantically invisible: whenever it is false,
tier (a)'s selection is empty anyway (an ingested full key is empty or
ends in a digit-or-dot character, while the refined key of an empty
third token ends in `x`). -/
lemma selA_empty_of_guard_false (m0 : Record) (ms : List Record) (parts : List String)
    (hw : ∀ r ∈ m0 :: ms, recordWF r)
    (hg : ((!(parts.getD 2 "").isEmpty) &&
      (m0 :: ms).any (fun r => !r.full_lookup_key.isEmpty)) = false) :
    selA (m0 :: ms) parts = [] := by
  rw [Bool.and_eq_false_iff] at hg
  apply List.filter_eq_nil_iff.2
  intro r hr hbeq
  have heq : r.full_lookup_key =
      fullKeyOf (parts.getD 0 "") (parts.getD 1 "") (parts.getD 2 "") := eq_of_beq hbeq
  rcases hg with hg | hg
  · have h3 : parts.getD 2 "" = "" := by
      rw [Bool.not_eq_false'] at hg
      exact (String.isEmpty_iff _).1 hg
    rw [h3] at heq
    have hshape : (build_keys r.designation).2 = r.full_lookup_key := by
      rw [hw r hr]
    rcases build_keys_snd_shape r.designation with hempty | ⟨c, hlast, hcshape⟩
    · rw [hshape] at hempty
      exact fullKeyOf_ne_empty _ _ _ (heq ▸ hempty)
    · rw [hshape, heq, fullKeyOf_empty_third_last] at hlast
      have hcx : c = 'x' := by injection hlast.symm
      rcases hcshape with hc | hc
      · rw [hcx] at hc; simp [isDigitChar] at hc
      · rw [hcx] at hc; simp at hc
  · have hempty : r.full_lookup_key = "" := by
      have := (List.any_eq_false.1 hg) r hr
      rw [Bool.not_eq_true, Bool.not_eq_false'] at this
      exact (String.isEmpty_iff _).1 this
    rw [hempty] at heq
    exact fullKeyOf_ne_empty _ _ _ heq.symm

/-- Code scenario: tier (a) selects a first record. -/
lemma pickWinner_tierA (m0 : Record) (ms : List Record) (parts : List String)
    (r : Record) (rest : List Record) (hlen : 3 ≤ parts.length)
    (hg : ((!(parts.getD 2 "").isEmpty) &&
      (m0 :: ms).any (fun r => !r.full_lookup_key.isEmpty)) = true)
    (hA : (m0 :: ms).filter (fun r => r.full_lookup_key ==
      fullKeyOf (parts.getD 0 "") (parts.getD 1 "") (parts.getD 2 "")) = r :: rest) :
    pickWinner m0 ms parts = (r, true) := by
  unfold pickWinner
  rw [if_pos hlen, if_pos hg, hA]

/-- Code scenario: tier (a) selects nothing, tier (b) selects a first
record.  `hA0` covers both a failed guard and an empty selection. -/
lemma pickWinner_tierB (m0 : Record) (ms : List Record) (parts : List String)
    (v : ℚ) (r : Record) (rest : List Record) (hlen : 3 ≤ parts.length)
    (hA0 : (if ((!(parts.getD 2 "").isEmpty) &&
        (m0 :: ms).any (fun r => !r.full_lookup_key.isEmpty)) = true then
      (m0 :: ms).filter (fun r => r.full_lookup_key ==
        fullKeyOf (parts.getD 0 "") (parts.getD 1 "") (parts.getD 2 ""))
      else []) = [])
    (hF : pyFloat? (parts.getD 2 "") = some v)
    (hBf : (m0 :: ms).filter (fun (r : Record) => r.extra_numeric == some v) = r :: rest) :
    pickWinner m0 ms parts = (r, true) := by
  unfold pickWinner
  rw [if_pos hlen, hA0, hF]
  simp only [hBf]

/-- Code scenario: tiers (a) and (b) select nothing (third token does
not parse), tier (c) selects a first record. -/
lemma pickWinner_tierC_noparse (m0 : Record) (ms : List Record) (parts : List String)
    (r : Record) (rest : List Record) (hlen : 3 ≤ parts.length)
    (hA0 : (if ((!(parts.getD 2 "").isEmpty) &&
        (m0 :: ms).any (fun r => !r.full_lookup_key.isEmpty)) = true then
      (m0 :: ms).filter (fun r => r.full_lookup_key ==
        fullKeyOf (parts.getD 0 "") (parts.getD 1 "") (parts.getD 2 ""))
      else []) = [])
    (hF : pyFloat? (parts.getD 2 "") = none)
    (hCf : (m0 :: ms).filter (fun (r : Record) =>
      extraTextNorm r.extraText == thirdNorm (parts.getD 2 "")) = r :: rest) :
    pickWinner m0 ms parts = (r, true) := by
  unfold pickWinner
  rw [if_pos hlen, hA0, hF]
  simp only [hCf]

/-- Code scenario: tier (a) empty, tier (b) non-empty-valued but
selecting nothing, tier (c) selects a first record. -/
lemma pickWinner_tierC_parsed (m0 : Record) (ms : List Record) (parts : List String)
    (v : ℚ) (r : Record) (rest : List Record) (hlen : 3 ≤ parts.length)
    (hA0 : (if ((!(parts.getD 2 "").isEmpty) &&
        (m0 :: ms).any (fun r => !r.full_lookup_key.isEmpty)) = true then
      (m0 :: ms).filter (fun r => r.full_lookup_key ==
        fullKeyOf (parts.getD 0 "") (parts.getD 1 "") (parts.getD 2 ""))
      else []) = [])
    (hF : pyFloat? (parts.getD 2 "") = some v)
    (hBf : (m0 :: ms).filter (fun (r : Record) => r.extra_numeric == some v) = [])
    (hCf : (m0 :: ms).filter (fun (r : Record) =>
      extraTextNorm r.extraText == thirdNorm (parts.getD 2 "")) = r :: rest) :
    pickWinner m0 ms parts = (r, true) := by
  unfold pickWinner
  rw [if_pos hlen, hA0, hF]
  simp only [hBf, hCf]

/-- Code scenario: every tier selects nothing, third token unparsed —
fall back to the first candidate. -/
lemma pickWinner_fallback_noparse (m0 : Record) (ms : List Record) (parts : List String)
    (hlen : 3 ≤ parts.length)
    (hA0 : (if ((!(parts.getD 2 "").isEmpty) &&
        (m0 :: ms).any (fun r => !r.full_lookup_key.isEmpty)) = true then
      (m0 :: ms).filter (fun r => r.full_lookup_key ==
        fullKeyOf (parts.getD 0 "") (parts.getD 1 "") (parts.getD 2 ""))
      else []) = [])
    (hF : pyFloat? (parts.getD 2 "") = none)
    (hCf : (m0 :: ms).filter (fun (r : Record) =>
      extraTextNorm r.extraText == thirdNorm (parts.getD 2 "")) = []) :
    pickWinner m0 ms parts = (m0, false) := by
  unfold pickWinner
  rw [if_pos hlen, hA0, hF]
  simp only [hCf]

/-- Code scenario: every tier selects nothing, third token parsed —
fall back to the first candidate. -/
lemma pickWinner_fallback_parsed (m0 : Record) (ms : List Record) (parts : List String)
    (v : ℚ) (hlen : 3 ≤ parts.length)
    (hA0 : (if ((!(parts.getD 2 "").isEmpty) &&
        (m0 :: ms).any (fun r => !r.full_lookup_key.isEmpty)) = true then
      (m0 :: ms).filter (fun r => r.full_lookup_key ==
        fullKeyOf (parts.getD 0 "") (parts.getD 1 "") (parts.getD 2 ""))
      else []) = [])
    (hF : pyFloat? (parts.getD 2 "") = some v)
    (hBf : (m0 :: ms).filter (fun (r : Record) => r.extra_numeric == some v) = [])
    (hCf : (m0 :: ms).filter (fun (r : Record) =>
      extraTextNorm r.extraText == thirdNorm (parts.getD 2 "")) = []) :
    pickWinner m0 ms parts = (m0, false) := by
  unfold pickWinner
  rw [if_pos hlen, hA0, hF]
  simp only [hBf, hCf]

/-- Under the ingestion contract, `pickWinner` returns exactly the
head of the first non-empty tier of the specification's order (the
whole candidate list counting as the final tier). -/
lemma pickWinner_spec (m0 : Record) (ms : List Record) (parts : List String)
    (hw : ∀ r ∈ m0 :: ms, recordWF r) (hlen : 3 ≤ parts.length) :
    (specTierSel (m0 :: ms) parts).head? = some (pickWinner m0 ms parts).1 := by
  have hselA : selA (m0 :: ms) parts = (m0 :: ms).filter (fun r => r.full_lookup_key ==
      fullKeyOf (parts.getD 0 "") (parts.getD 1 "") (parts.getD 2 "")) := rfl
  have hselC : selC (m0 :: ms) parts = (m0 :: ms).filter (fun (r : Record) =>
      extraTextNorm r.extraText == thirdNorm (parts.getD 2 "")) := rfl
  cases hA : selA (m0 :: ms) parts with
  | cons r rest =>
    have hg : ((!(parts.getD 2 "").isEmpty) &&
        (m0 :: ms).any (fun r => !r.full_lookup_key.isEmpty)) = true := by
      by_contra hgf
      have := selA_empty_of_guard_false m0 ms parts hw (Bool.eq_false_iff.mpr hgf)
      rw [this] at hA
      exact List.noConfusion hA
    rw [pickWinner_tierA m0 ms parts r rest hlen hg (hselA ▸ hA)]
    unfold specTierSel
    rw [if_pos (by rw [hA]; exact List.cons_ne_nil r rest), hA]
    rfl
  | nil =>
    have hA0 : (if ((!(parts.getD 2 "").isEmpty) &&
        (m0 :: ms).any (fun r => !r.full_lookup_key.isEmpty)) = true then
        (m0 :: ms).filter (fun r => r.full_lookup_key ==
          fullKeyOf (parts.getD 0 "") (parts.getD 1 "") (parts.getD 2 ""))
        else []) = [] := by
      split
      · exact hselA ▸ hA
      · rfl
    unfold specTierSel
    rw [if_neg (by rw [hA]; exact fun h => h rfl)]
    cases hF : pyFloat? (parts.getD 2 "") with
    | some v =>
      have hselB : selB (m0 :: ms) parts =
          (m0 :: ms).filter (fun (r : Record) => r.extra_numeric == some v) := by
        unfold selB
        rw [hF]
      cases hBf : (m0 :: ms).filter (fun (r : Record) => r.extra_numeric == some v) with
      | cons r rest =>
        rw [pickWinner_tierB m0 ms parts v r rest hlen hA0 hF hBf]
        rw [if_pos (by rw [hselB, hBf]; exact List.cons_ne_nil r rest), hselB, hBf]
        rfl
      | nil =>
        rw [if_neg (by rw [hselB, hBf]; exact fun h => h rfl)]
        cases hCf : (m0 :: ms).filter (fun (r : Record) =>
            extraTextNorm r.extraText == thirdNorm (parts.getD 2 "")) with
        | cons r rest =>
          rw [pickWinner_tierC_parsed m0 ms parts v r rest hlen hA0 hF hBf hCf]
          rw [if_pos (by rw [hselC, hCf]; exact List.cons_ne_nil r rest), hselC, hCf]
          rfl
        | nil =>
          rw [pickWinner_fallback_parsed m0 ms parts v hlen hA0 hF hBf hCf]
          rw [if_neg (by rw [hselC, hCf]; exact fun h => h rfl)]
          rfl
    | none =>
      have hselB : selB (m0 :: ms) parts = [] := by
        unfold selB
        rw [hF]
      rw [if_neg (by rw [hselB]; exact fun h => h rfl)]
      cases hCf : (m0 :: ms).filter (fun (r : Record) =>
          extraTextNorm r.extraText == thirdNorm (parts.getD 2 "")) with
      | cons r rest =>
        rw [pickWinner_tierC_noparse m0 ms parts r rest hlen hA0 hF hCf]
        rw [if_pos (by rw [hselC, hCf]; exact List.cons_ne_nil r rest), hselC, hCf]
        rfl
      | nil =>
        rw [pickWinner_fallback_noparse m0 ms parts hlen hA0 hF hCf]
        rw [if_neg (by rw [hselC, hCf]; exact fun h => h rfl)]
        rfl

/-- Both matching tiers only filter the table, so every candidate is a
table row. -/
lemma findCandidates_subset (rows : List Record) (key : String) :
    ∀ r ∈ findCandidates rows key, r ∈ rows := by
  intro r hr
  simp only [findCandidates] at hr
  split at hr
  · exact List.mem_of_mem_filter hr
  · exact List.mem_of_mem_filter hr

/-- Row with the full key `356x406x1299` (C2 scenario data). -/
def c2rec1 : Record := {
  designation := "356 x 406 x 1299",
  extraText := Value.null,
  otherProps := [("Mass per metre        kg/m", Value.num 1299)],
  lookup_key := "356x406",
  full_lookup_key := "356x406x1299",
  extra_numeric := none }

/-- Row distinguished only by `extra_numeric = 283` (C2 scenario
data). -/
def c2rec2 : Record := {
  designation := "356 x 406",
  extraText := Value.str "x 283",
  otherProps := [("Mass per metre        kg/m", Value.num 283)],
  lookup_key := "356x406",
  full_lookup_key := "",
  extra_numeric := some 283 }

/-- UC table with the specification's two-variant disambiguation
scenario. -/
def c2db : DB := ⟨some [c2rec1, c2rec2], none⟩

/-- Claim C2: with at least three tokens and a non-empty candidate
set, `find_section` disambiguates in the fixed order full-key /
extra-numeric / extra-text and returns the first record of the first
non-empty selection (the candidate set itself when all three are
empty, which yields its first record); in the two-variant scenario,
`"uc 356x406x1299"` resolves to the full-key row and
`"uc 356x406x283"` to the extra-numeric row.  The general statement
assumes the ingestion contract (`recordWF`) that the loader
establishes for every real table. -/
theorem C2_tier_order :
    (∀ (db : DB) (input st : String) (g : List Char) (rows : List Record)
        (m0 : Record) (ms : List Record),
      ucubMatchL (normInput input) = some (st, g) →
      db.getTable st = some rows →
      (∀ r ∈ rows, recordWF r) →
      3 ≤ (pySplit (pyStrip (String.mk g))).length →
      findCandidates rows (deriveKey (pyStrip (String.mk g))
        (pySplit (pyStrip (String.mk g)))) = m0 :: ms →
      ∃ w rest flag, specTierSel (m0 :: ms) (pySplit (pyStrip (String.mk g))) = w :: rest ∧
        find_section db input = .ok (mkLookupResult st (pyStrip (String.mk g)) w flag)) ∧
    find_section c2db "uc 356x406x1299" =
      .ok (mkLookupResult "UC" "356x406x1299" c2rec1 true) ∧
    find_section c2db "uc 356x406x283" =
      .ok (mkLookupResult "UC" "356x406x283" c2rec2 true) := by
  refine ⟨?_, rfl, rfl⟩
  intro db input st g rows m0 ms hu ht hwf hlen hc
  have hw : ∀ r ∈ m0 :: ms, recordWF r := by
    intro r hr
    exact hwf r (findCandidates_subset rows _ r (hc ▸ hr))
  have hhead := pickWinner_spec m0 ms (pySplit (pyStrip (String.mk g))) hw hlen
  rw [find_section_of_ucub hu]
  simp only [lookupBranch, ht, hc]
  cases hS : specTierSel (m0 :: ms) (pySplit (pyStrip (String.mk g))) with
  | nil => rw [hS] at hhead; exact absurd hhead (by simp)
  | cons w rest =>
    rw [hS] at hhead
    have hw1 : w = (pickWinner m0 ms (pySplit (pyStrip (String.mk g)))).1 := by
      simpa using hhead
    exact ⟨w, rest, (pickWinner m0 ms (pySplit (pyStrip (String.mk g)))).2, rfl, by rw [hw1]⟩

/-- Witness for C2's general statement at the concrete scenario
database and query `"uc 356x406x1299"`. -/
theorem C2_witness :
    ∃ w rest flag,
      specTierSel [c2rec1, c2rec2]
        (pySplit (pyStrip (String.mk ("356x406x1299".data)))) = w :: rest ∧
      find_section c2db "uc 356x406x1299" =
        .ok (mkLookupResult "UC" (pyStrip (String.mk ("356x406x1299".data))) w flag) :=
  C2_tier_order.1 c2db "uc 356x406x1299" "UC" ("356x406x1299".data) [c2rec1, c2rec2]
    c2rec1 [c2rec2] rfl rfl
    (by
      intro r hr
      rcases List.mem_cons.1 hr with rfl | hr
      · unfold recordWF; decide
      · rcases List.mem_cons.1 hr with rfl | hr
        · unfold recordWF; decide
        · simp at hr)
    (by decide) rfl

end SectionRetrieval

